import Mathlib

/-! # alertctl: state classification, filtering, matcher parsing and status decoding

A shallow embedding of the core of the `alertctl` command-line client
(`internal/types/types.go`, `cmd/alerts.go`, `cmd/silences.go`,
`internal/api/alertmanager.go`) together with theorems about it.

Conventions of the embedding:
* a Go `string` is a Lean `String`; a Go slice is a `List` (a nil slice and an
  empty slice are both `[]`, the code only ever takes `len` of them);
* a Go `map[string]string` is an association list read with `mapIndex`, which
  returns the zero value `""` for a missing key like Go's `m[key]`;
* a nillable pointer `*T` is an `Option T`;
* `time.Time` is an instant counted in nanoseconds from Go's zero instant;
* `time.Now()` reads an explicit clock, a stream of successive readings.
-/

namespace Alertctl

/-! ## Data model (`internal/types/types.go`) -/

/-- Go `time.Time`, as nanoseconds elapsed since the zero instant
(January 1, year 1, 00:00:00 UTC). -/
structure Time where
  nanos : Int
deriving DecidableEq, Repr

/-- Go `time.Duration`, in nanoseconds. -/
abbrev Duration := Int

/-- Go `time.Hour`. -/
def Hour : Duration := 3600 * 1000000000

/-- Go `Time.IsZero`. -/
def Time.IsZero (t : Time) : Bool := t.nanos == 0

/-- Go `Time.Add`. -/
def Time.Add (t : Time) (d : Duration) : Time := ⟨t.nanos + d⟩

/-- The zero value of `time.Time`. -/
def Time.zero : Time := ⟨0⟩

/-- Go `map[string]string`. -/
abbrev StringMap := List (String × String)

/-- Go `m[key]` on a `map[string]string`: the zero value when the key is missing. -/
def mapIndex (m : StringMap) (key : String) : String :=
  match m.lookup key with
  | some v => v
  | none => ""

/-- Go `type AlertStatus struct`. -/
structure AlertStatus where
  State : String
  SilencedBy : List String
  InhibitedBy : List String
  MutedBy : List String
deriving DecidableEq, Repr

/-- Go `type Alert struct`. -/
structure Alert where
  Labels : StringMap
  Annotations : StringMap
  StartsAt : Time
  EndsAt : Time
  Fingerprint : String
  UpdatedAt : Time
  Status : String
  AlertStatus : Option AlertStatus
deriving DecidableEq, Repr

/-- The zero value of `Alert`. -/
def Alert.zero : Alert :=
  { Labels := [], Annotations := [], StartsAt := Time.zero, EndsAt := Time.zero,
    Fingerprint := "", UpdatedAt := Time.zero, Status := "", AlertStatus := none }

/-- Go `type SilenceStatus struct`. -/
structure SilenceStatus where
  State : String
deriving DecidableEq, Repr

/-- Go `type Matcher struct`. -/
structure Matcher where
  Name : String
  Value : String
  IsRegex : Bool
deriving DecidableEq, Repr

/-- Go `type Silence struct`. -/
structure Silence where
  ID : String
  Status : String
  StatusV2 : Option SilenceStatus
  Matchers : List Matcher
  StartsAt : Time
  EndsAt : Time
  CreatedBy : String
  Comment : String
deriving DecidableEq, Repr

/-- The zero value of `Silence`. -/
def Silence.zero : Silence :=
  { ID := "", Status := "", StatusV2 := none, Matchers := [], StartsAt := Time.zero,
    EndsAt := Time.zero, CreatedBy := "", Comment := "" }

/-- Go `type AlertResponse struct`. -/
structure AlertResponse where
  Status : String
  Data : List Alert
  ErrorType : String
  Error : String
deriving DecidableEq, Repr

/-! ## State classifiers -/

/-- The v2 block of `Alert.GetState` (types.go lines 60-73): the value returned from
inside `if a.AlertStatus != nil`, or `none` when control falls through. -/
def Alert.GetState.v2 (a : Alert) : Option String :=
  match a.AlertStatus with
  | none => none
  | some st =>
    if st.State ≠ "" then some st.State
    else if st.SilencedBy.length > 0 ∨ st.MutedBy.length > 0 then some "silenced"
    else if st.InhibitedBy.length > 0 then some "inhibited"
    else none

/-- Go `func (a Alert) GetState() string` (types.go lines 58-82). -/
def Alert.GetState (a : Alert) : String :=
  match Alert.GetState.v2 a with
  | some s => s
  | none => if a.Status ≠ "" then a.Status else "active"

/-- Go `func (s Silence) GetState() string` (types.go lines 99-107). -/
def Silence.GetState (s : Silence) : String :=
  match s.StatusV2 with
  | some st => if st.State ≠ "" then st.State
               else if s.Status ≠ "" then s.Status else "active"
  | none => if s.Status ≠ "" then s.Status else "active"

/-- Go `func getAlertState(alert types.Alert) string` (cmd/alerts.go lines 125-138). -/
def getAlertState (alert : Alert) : String :=
  match alert.AlertStatus with
  | none => "active"
  | some st =>
    if st.SilencedBy.length > 0 ∨ st.MutedBy.length > 0 then "silenced"
    else if st.InhibitedBy.length > 0 then "inhibited"
    else "active"

/-! ## Filter engine (`cmd/alerts.go`) -/

/-- Go `type alertFilters struct`. -/
structure alertFilters where
  showAll : Bool
  showSilenced : Bool
  showInhibited : Bool
  showActive : Bool
  severity : String
  instance_ : String
deriving DecidableEq, Repr

/-- One iteration of the loop of `applyFilters` (cmd/alerts.go lines 94-120): the two
`continue` guards, then the `switch` whose five cases all append the alert. -/
def applyFilters.step (filters : alertFilters) (result : List Alert) (alert : Alert) :
    List Alert :=
  if filters.severity ≠ "" ∧ mapIndex alert.Labels "severity" ≠ filters.severity then result
  else if filters.instance_ ≠ "" ∧ mapIndex alert.Labels "instance" ≠ filters.instance_ then
    result
  else
    let state := getAlertState alert
    if filters.showAll then result ++ [alert]
    else if filters.showSilenced ∧ state = "silenced" then result ++ [alert]
    else if filters.showInhibited ∧ state = "inhibited" then result ++ [alert]
    else if filters.showActive ∧ state = "active" then result ++ [alert]
    else if !filters.showAll ∧ !filters.showSilenced ∧ !filters.showInhibited ∧
        !filters.showActive ∧ state = "active" then result ++ [alert]
    else result

/-- Go `func applyFilters(alerts []types.Alert, filters alertFilters) []types.Alert`
(cmd/alerts.go lines 91-123). -/
def applyFilters (alerts : List Alert) (filters : alertFilters) : List Alert :=
  alerts.foldl (applyFilters.step filters) []

/-- Whether an iteration of the loop of `applyFilters` appends the alert: the test that
`applyFilters.step` makes, read off its effect on the empty result. -/
def applyFilters.keeps (filters : alertFilters) (alert : Alert) : Bool :=
  decide (applyFilters.step filters [] alert = [alert])

/-! ## Matcher parser (`cmd/silences.go`)

Strings are handled as lists of characters (`String.data`). The separators `=` and `~`
are ASCII, so splitting on them by character agrees with Go's splitting by byte on
well-formed UTF-8 input. -/

/-- Go `unicode.IsSpace`: the Latin-1 cases of its `switch`, then the `White_Space`
range table above Latin-1. -/
def IsSpace (r : Char) : Bool :=
  let n := r.toNat
  if n ≤ 0xFF then
    n = 0x09 ∨ n = 0x0A ∨ n = 0x0B ∨ n = 0x0C ∨ n = 0x0D ∨ n = 0x20 ∨ n = 0x85 ∨ n = 0xA0
  else
    n = 0x1680 ∨ (0x2000 ≤ n ∧ n ≤ 0x200A) ∨ n = 0x2028 ∨ n = 0x2029 ∨ n = 0x202F ∨
      n = 0x205F ∨ n = 0x3000

/-- Go `strings.TrimSpace`: drop leading, then trailing, white space. -/
def TrimSpace (s : List Char) : List Char :=
  ((s.dropWhile IsSpace).reverse.dropWhile IsSpace).reverse

/-- Go `strings.Index(s, sep)` for a one-character separator; `none` stands for `-1`. -/
def Index (s : List Char) (sep : Char) : Option Nat :=
  match s with
  | [] => none
  | c :: rest => if c = sep then some 0 else (Index rest sep).map (· + 1)

/-- Go `strings.SplitN(s, sep, 2)` for a one-character separator, after `genSplit`:
`n` is capped at `len(s)+1`, the loop cuts at the first separator at most `n-1` times,
and the remainder is the last part. -/
def SplitN2 (s : List Char) (sep : Char) : List (List Char) :=
  let n := min 2 (s.length + 1)
  if n - 1 = 0 then [s]
  else
    match Index s sep with
    | none => [s]
    | some m => [s.take m, s.drop (m + 1)]

/-- Go `strings.HasPrefix(s, "~")`-style test for a one-character prefix. -/
def HasPrefix (s : List Char) (p : Char) : Bool :=
  match s with
  | [] => false
  | c :: _ => c = p

/-- Go `strings.TrimPrefix(s, "~")`-style removal of a one-character prefix. -/
def TrimPrefix (s : List Char) (p : Char) : List Char :=
  if HasPrefix s p then s.drop 1 else s

/-- Go `func parseMatcher(input string) (types.Matcher, error)`
(cmd/silences.go lines 187-208). -/
def parseMatcher (input : String) : Except String Matcher :=
  match SplitN2 input.data '=' with
  | [name, value] =>
    let isRegex := HasPrefix value '~'
    let value := if isRegex then TrimPrefix value '~' else value
    .ok { Name := String.mk (TrimSpace name), Value := String.mk (TrimSpace value),
          IsRegex := isRegex }
  | _ => .error "invalid matcher format, expected name=value"

/-- The spec's "surrounding whitespace trimmed": `t` is `s` without a leading and a
trailing run of white space, and `t` neither starts nor ends with white space. -/
def IsTrimOf (t s : List Char) : Prop :=
  ∃ l r, s = l ++ t ++ r ∧ (∀ c ∈ l, IsSpace c = true) ∧ (∀ c ∈ r, IsSpace c = true) ∧
    (∀ c, t.head? = some c → IsSpace c = false) ∧
    (∀ c, t.getLast? = some c → IsSpace c = false)

/-! ## Clock -/

/-- The process clock: reading number `k` of `time.Now()` returns `clk k`. -/
abbrev Clock := Nat → Time

/-! ## Silence creation (`internal/api/alertmanager.go`) -/

/-- The default-filling prologue of `AlertManagerClient.CreateSilence`
(alertmanager.go lines 110-119): the value of `silence` that is handed to
`json.Marshal`. `time.Now()` is read once for each timestamp that is defaulted,
starting at reading `k` of the clock. -/
def CreateSilence.serialized (clk : Clock) (k : Nat) (silence : Silence) : Silence :=
  let (silence, k) :=
    if silence.StartsAt.IsZero then ({ silence with StartsAt := clk k }, k + 1)
    else (silence, k)
  let silence :=
    if silence.EndsAt.IsZero then { silence with EndsAt := (clk k).Add (1 * Hour) }
    else silence
  if silence.CreatedBy = "" then { silence with CreatedBy := "alertctl" } else silence

/-! ## JSON decoding (`encoding/json`, as used by the client)

The client hands response bodies to Go's `encoding/json`. The part of its documented
behaviour that the client relies on is modelled here on parsed JSON values: which
struct field a key is stored to, and which JSON values a Go type accepts.
A failed decode short-circuits: the callers discard the partial value on any error. -/

/-- A parsed JSON value. Number literals are kept as text. -/
inductive JSON where
  | null
  | bool (b : Bool)
  | num (lit : String)
  | str (s : String)
  | arr (elems : List JSON)
  | obj (members : List (String × JSON))

/-- Ways a call can fail: a returned `error`, or a run-time panic. -/
inductive Err where
  | err (msg : String)
  | panic (msg : String)
deriving DecidableEq, Repr

/-- A JSON-visible struct field as `encoding/json` sees it: its JSON name, its embedding
depth (`len(index)`), whether the name comes from a tag, and the Go field it denotes. -/
structure field (ι : Type) where
  name : String
  depth : Nat
  tag : Bool
  id : ι

/-- The field that `encoding/json` keeps for one JSON name (its `dominantField`, with
the ordering of `typeFields`): among the fields of that name at the least depth, only
the tagged ones count if there is any; a single remaining field is selected, and when
several remain all of them are ignored. -/
def dominantField {ι : Type} (fields : List (field ι)) (name : String) : Option (field ι) :=
  let named := fields.filter (fun f => f.name = name)
  match (named.map (fun f => f.depth)).min? with
  | none => none
  | some d =>
    let shallow := named.filter (fun f => f.depth = d)
    let tagged := shallow.filter (fun f => f.tag)
    match (if tagged.isEmpty then shallow else tagged) with
    | [f] => some f
    | _ => none

/-- Case folding of one character of a key, as `encoding/json` folds names: ASCII
letters fold together with their other case, the Kelvin sign with `k` and the long s
with `s`. On the ASCII field names used here, equality after this folding is the
equality of Go's `foldName`. -/
def foldRune (c : Char) : Char :=
  let n := c.toNat
  if 0x41 ≤ n ∧ n ≤ 0x5A then Char.ofNat (n + 32)
  else if n = 0x212A then 'k'
  else if n = 0x017F then 's'
  else c

/-- Folded form of a key. -/
def foldName (s : String) : List Char := s.data.map foldRune

/-- The distinct names of a list, in order of first occurrence. -/
def distinctNames : List String → List String
  | [] => []
  | n :: rest => n :: (distinctNames rest).filter (fun m => m ≠ n)

/-- The fields of a struct that `encoding/json` keeps (its `typeFields`): for every JSON
name the dominant field, if there is one. -/
def typeFields {ι : Type} (fields : List (field ι)) : List (field ι) :=
  (distinctNames (fields.map (fun f => f.name))).filterMap (dominantField fields)

/-- The struct field a JSON object key is stored to: the kept field of exactly that
name, else the first kept field whose name equals the key after case folding; `none`
when the key matches no kept field and is skipped. -/
def findField {ι : Type} (fields : List (field ι)) (key : String) : Option (field ι) :=
  match (typeFields fields).find? (fun f => f.name = key) with
  | some f => some f
  | none => (typeFields fields).find? (fun f => foldName f.name = foldName key)

/-- Decoding a JSON object into a struct: the members are stored in order, each into
the field its key selects. -/
def unmarshalObject {ι σ : Type} (fields : List (field ι))
    (store : σ → ι → JSON → Except Err σ) (cur : σ) : List (String × JSON) → Except Err σ
  | [] => .ok cur
  | kv :: rest =>
    match findField fields kv.1 with
    | none => unmarshalObject fields store cur rest
    | some f =>
      match store cur f.id kv.2 with
      | .error e => .error e
      | .ok next => unmarshalObject fields store next rest

/-- Decoding into a Go `string`: a JSON string is stored, `null` leaves the value as it
is, anything else is a type error. -/
def unmarshalString (cur : String) : JSON → Except Err String
  | .str s => .ok s
  | .null => .ok cur
  | _ => .error (.err "json: cannot unmarshal into Go value of type string")

/-- Decoding into a Go `bool`. -/
def unmarshalBool (cur : Bool) : JSON → Except Err Bool
  | .bool b => .ok b
  | .null => .ok cur
  | _ => .error (.err "json: cannot unmarshal into Go value of type bool")

/-- Decoding into a Go slice whose elements are decoded by `elem` from the zero value
`zero`: an array gives the decoded elements in order, `null` gives the nil slice. -/
def unmarshalSlice {α : Type} (zero : α) (elem : α → JSON → Except Err α) :
    JSON → Except Err (List α)
  | .arr elems => elems.mapM (elem zero)
  | .null => .ok []
  | _ => .error (.err "json: cannot unmarshal into Go value of slice type")

/-- Go `map` assignment `m[key] = value`. -/
def mapStore (m : StringMap) (key value : String) : StringMap :=
  if m.any (fun kv => kv.1 = key) then
    m.map (fun kv => if kv.1 = key then (key, value) else kv)
  else m ++ [(key, value)]

/-- Decoding into a Go `map[string]string`: an object adds its members to the map,
`null` gives the nil map. -/
def unmarshalStringMap (cur : StringMap) : JSON → Except Err StringMap
  | .obj members =>
    members.foldlM (fun m kv => do
      let v ← unmarshalString "" kv.2
      pure (mapStore m kv.1 v)) cur
  | .null => .ok []
  | _ => .error (.err "json: cannot unmarshal into Go value of type map[string]string")

/-- Decoding into a Go `time.Time` (`Time.UnmarshalJSON`): `null` leaves the value as it
is, a string is parsed as RFC 3339 by `parseTime`, anything else is an error. -/
def unmarshalTime (parseTime : String → Option Time) (cur : Time) : JSON → Except Err Time
  | .str s =>
    match parseTime s with
    | some t => .ok t
    | none => .error (.err "parsing time: not RFC 3339")
  | .null => .ok cur
  | _ => .error (.err "Time.UnmarshalJSON: input is not a JSON string")

/-- Decoding into a Go struct whose object form is decoded by `fromObject`: `null` leaves
the value as it is, a non-object is a type error. -/
def unmarshalStruct {σ : Type} (fromObject : σ → List (String × JSON) → Except Err σ)
    (cur : σ) : JSON → Except Err σ
  | .obj members => fromObject cur members
  | .null => .ok cur
  | _ => .error (.err "json: cannot unmarshal into Go struct")

/-! ### The structs of the client -/

/-- The Go fields of `AlertStatus`. -/
inductive AlertStatusField where
  | State | SilencedBy | InhibitedBy | MutedBy
deriving DecidableEq, Repr

/-- JSON fields of `AlertStatus` (types.go lines 21-26). -/
def alertStatusFields : List (field AlertStatusField) :=
  [⟨"state", 1, true, .State⟩, ⟨"silencedBy", 1, true, .SilencedBy⟩,
   ⟨"inhibitedBy", 1, true, .InhibitedBy⟩, ⟨"mutedBy", 1, true, .MutedBy⟩]

/-- The zero value of `AlertStatus`. -/
def AlertStatus.zero : AlertStatus :=
  { State := "", SilencedBy := [], InhibitedBy := [], MutedBy := [] }

/-- Storing one member into an `AlertStatus`. -/
def storeAlertStatus (st : AlertStatus) (f : AlertStatusField) (v : JSON) :
    Except Err AlertStatus :=
  match f with
  | .State => do let x ← unmarshalString st.State v; pure { st with State := x }
  | .SilencedBy => do let x ← unmarshalSlice "" unmarshalString v; pure { st with SilencedBy := x }
  | .InhibitedBy => do
    let x ← unmarshalSlice "" unmarshalString v; pure { st with InhibitedBy := x }
  | .MutedBy => do let x ← unmarshalSlice "" unmarshalString v; pure { st with MutedBy := x }

/-- Go `json.Unmarshal(raw, &status)` for `status AlertStatus`. -/
def unmarshalAlertStatus (cur : AlertStatus) (v : JSON) : Except Err AlertStatus :=
  unmarshalStruct (unmarshalObject alertStatusFields storeAlertStatus) cur v

/-- The Go fields of `Matcher`. -/
inductive MatcherField where
  | Name | Value | IsRegex
deriving DecidableEq, Repr

/-- JSON fields of `Matcher` (types.go lines 109-113). -/
def matcherFields : List (field MatcherField) :=
  [⟨"name", 1, true, .Name⟩, ⟨"value", 1, true, .Value⟩, ⟨"isRegex", 1, true, .IsRegex⟩]

/-- Storing one member into a `Matcher`. -/
def storeMatcher (m : Matcher) (f : MatcherField) (v : JSON) : Except Err Matcher :=
  match f with
  | .Name => do let x ← unmarshalString m.Name v; pure { m with Name := x }
  | .Value => do let x ← unmarshalString m.Value v; pure { m with Value := x }
  | .IsRegex => do let x ← unmarshalBool m.IsRegex v; pure { m with IsRegex := x }

/-- Decoding into a `Matcher`. -/
def unmarshalMatcher (cur : Matcher) (v : JSON) : Except Err Matcher :=
  unmarshalStruct (unmarshalObject matcherFields storeMatcher) cur v

/-- The Go fields of `Silence`. -/
inductive SilenceField where
  | ID | Status | StatusV2 | Matchers | StartsAt | EndsAt | CreatedBy | Comment
deriving DecidableEq, Repr

/-- JSON fields of `Silence` (types.go lines 84-93): `Status` and `StatusV2` carry the
same tag `status` at the same depth. -/
def silenceFields : List (field SilenceField) :=
  [⟨"id", 1, true, .ID⟩, ⟨"status", 1, true, .Status⟩, ⟨"status", 1, true, .StatusV2⟩,
   ⟨"matchers", 1, true, .Matchers⟩, ⟨"startsAt", 1, true, .StartsAt⟩,
   ⟨"endsAt", 1, true, .EndsAt⟩, ⟨"createdBy", 1, true, .CreatedBy⟩,
   ⟨"comment", 1, true, .Comment⟩]

/-- Decoding into a `SilenceStatus`. -/
def unmarshalSilenceStatus (cur : SilenceStatus) (v : JSON) : Except Err SilenceStatus :=
  unmarshalStruct
    (unmarshalObject [(⟨"state", 1, true, ()⟩ : field Unit)]
      (fun st _ x => do let y ← unmarshalString st.State x; pure { st with State := y }))
    cur v

/-- Storing one member into a `Silence`. A pointer field is set to nil by `null` and
otherwise decoded into the value it points to, allocated when nil. -/
def storeSilence (parseTime : String → Option Time) (s : Silence) (f : SilenceField)
    (v : JSON) : Except Err Silence :=
  match f with
  | .ID => do let x ← unmarshalString s.ID v; pure { s with ID := x }
  | .Status => do let x ← unmarshalString s.Status v; pure { s with Status := x }
  | .StatusV2 =>
    match v with
    | .null => pure { s with StatusV2 := none }
    | _ => do
      let x ← unmarshalSilenceStatus (s.StatusV2.getD ⟨""⟩) v
      pure { s with StatusV2 := some x }
  | .Matchers => do
    let x ← unmarshalSlice ⟨"", "", false⟩ unmarshalMatcher v; pure { s with Matchers := x }
  | .StartsAt => do let x ← unmarshalTime parseTime s.StartsAt v; pure { s with StartsAt := x }
  | .EndsAt => do let x ← unmarshalTime parseTime s.EndsAt v; pure { s with EndsAt := x }
  | .CreatedBy => do let x ← unmarshalString s.CreatedBy v; pure { s with CreatedBy := x }
  | .Comment => do let x ← unmarshalString s.Comment v; pure { s with Comment := x }

/-- Decoding into a `Silence`, which has no `UnmarshalJSON` of its own. -/
def unmarshalSilence (parseTime : String → Option Time) (cur : Silence) (v : JSON) :
    Except Err Silence :=
  unmarshalStruct (unmarshalObject silenceFields (storeSilence parseTime)) cur v

/-- The Go fields of the auxiliary struct of `Alert.UnmarshalJSON`: those promoted from
the embedded `*Alias`, and `RawStatus`. -/
inductive AuxField where
  | Labels | Annotations | StartsAt | EndsAt | Fingerprint | UpdatedAt | Status
  | AlertStatus | RawStatus
deriving DecidableEq, Repr

/-- JSON fields of the auxiliary struct (types.go lines 30-35, with the fields of
`Alert`, lines 8-19, one level down in the embedded `*Alias`). -/
def auxFields : List (field AuxField) :=
  [⟨"labels", 2, true, .Labels⟩, ⟨"annotations", 2, true, .Annotations⟩,
   ⟨"startsAt", 2, true, .StartsAt⟩, ⟨"endsAt", 2, true, .EndsAt⟩,
   ⟨"fingerprint", 2, true, .Fingerprint⟩, ⟨"updatedAt", 2, true, .UpdatedAt⟩,
   ⟨"status", 2, true, .Status⟩, ⟨"status", 2, true, .AlertStatus⟩,
   ⟨"status", 1, true, .RawStatus⟩]

/-- The auxiliary struct of `Alert.UnmarshalJSON`: `Alias` points to the receiver,
`RawStatus` is a `json.RawMessage`, nil until a `status` member is stored. -/
structure Aux where
  Alias : Alert
  RawStatus : Option JSON

/-- Storing one member into the auxiliary struct. A `json.RawMessage` takes any JSON
value verbatim, `null` included. -/
def storeAux (parseTime : String → Option Time) (aux : Aux) (f : AuxField) (v : JSON) :
    Except Err Aux :=
  let a := aux.Alias
  match f with
  | .Labels => do
    let x ← unmarshalStringMap a.Labels v; pure { aux with Alias := { a with Labels := x } }
  | .Annotations => do
    let x ← unmarshalStringMap a.Annotations v
    pure { aux with Alias := { a with Annotations := x } }
  | .StartsAt => do
    let x ← unmarshalTime parseTime a.StartsAt v
    pure { aux with Alias := { a with StartsAt := x } }
  | .EndsAt => do
    let x ← unmarshalTime parseTime a.EndsAt v; pure { aux with Alias := { a with EndsAt := x } }
  | .Fingerprint => do
    let x ← unmarshalString a.Fingerprint v
    pure { aux with Alias := { a with Fingerprint := x } }
  | .UpdatedAt => do
    let x ← unmarshalTime parseTime a.UpdatedAt v
    pure { aux with Alias := { a with UpdatedAt := x } }
  | .Status => do
    let x ← unmarshalString a.Status v; pure { aux with Alias := { a with Status := x } }
  | .AlertStatus =>
    match v with
    | .null => pure { aux with Alias := { a with AlertStatus := none } }
    | _ => do
      let x ← unmarshalAlertStatus (a.AlertStatus.getD AlertStatus.zero) v
      pure { aux with Alias := { a with AlertStatus := some x } }
  | .RawStatus => pure { aux with RawStatus := some v }

/-- Whether an object key is stored to `RawStatus`, that is, names the `status` field. -/
def isStatusKey (key : String) : Bool :=
  match findField auxFields key with
  | some f => decide (f.id = AuxField.RawStatus)
  | none => false

/-- The status value of an alert object: the value of its last `status` member, the one
that `RawStatus` holds after decoding; `none` when there is no such member. -/
def statusValue (members : List (String × JSON)) : Option JSON :=
  ((members.filter (fun kv => isStatusKey kv.1)).getLast?).map (fun kv => kv.2)

/-- Go `json.Unmarshal(data, &aux)` for the pointer `aux` to the auxiliary struct
(types.go line 37): an object is decoded into the struct, `null` sets the pointer
`aux` itself to nil (`none`), anything else is a type error. -/
def unmarshalAux (parseTime : String → Option Time) (aux : Aux) :
    JSON → Except Err (Option Aux)
  | .obj members => do
    let x ← unmarshalObject auxFields (storeAux parseTime) aux members
    pure (some x)
  | .null => .ok none
  | _ => .error (.err "json: cannot unmarshal into Go struct")

/-- Go `func (a *Alert) UnmarshalJSON(data []byte) error` (types.go lines 28-56),
returning the receiver as it stands after a successful call. -/
def Alert.UnmarshalJSON (parseTime : String → Option Time) (a : Alert) (data : JSON) :
    Except Err Alert :=
  match unmarshalAux parseTime { Alias := a, RawStatus := none } data with
  | .error e => .error e
  | .ok none => .error (.panic "invalid memory address or nil pointer dereference")
  | .ok (some aux) =>
    let a := aux.Alias
    match aux.RawStatus with
    | none => .ok a
    | some raw =>
      match unmarshalAlertStatus AlertStatus.zero raw with
      | .ok status => .ok { a with AlertStatus := some status }
      | .error _ =>
        match unmarshalString "" raw with
        | .ok statusStr => .ok { a with Status := statusStr }
        | .error _ => .ok a

/-- Decoding into a `[]types.Alert`: every element goes through `Alert.UnmarshalJSON`. -/
def unmarshalAlerts (parseTime : String → Option Time) (v : JSON) : Except Err (List Alert) :=
  unmarshalSlice Alert.zero (Alert.UnmarshalJSON parseTime) v

/-- The Go fields of `AlertResponse`. -/
inductive AlertResponseField where
  | Status | Data | ErrorType | Error
deriving DecidableEq, Repr

/-- JSON fields of `AlertResponse` (types.go lines 115-120). -/
def alertResponseFields : List (field AlertResponseField) :=
  [⟨"status", 1, true, .Status⟩, ⟨"data", 1, true, .Data⟩,
   ⟨"errorType", 1, true, .ErrorType⟩, ⟨"error", 1, true, .Error⟩]

/-- Storing one member into an `AlertResponse`. -/
def storeAlertResponse (parseTime : String → Option Time) (r : AlertResponse)
    (f : AlertResponseField) (v : JSON) : Except Err AlertResponse :=
  match f with
  | .Status => do let x ← unmarshalString r.Status v; pure { r with Status := x }
  | .Data => do let x ← unmarshalAlerts parseTime v; pure { r with Data := x }
  | .ErrorType => do let x ← unmarshalString r.ErrorType v; pure { r with ErrorType := x }
  | .Error => do let x ← unmarshalString r.Error v; pure { r with Error := x }

/-- Go `json.Unmarshal(body, &response)` for `response types.AlertResponse`. -/
def unmarshalAlertResponse (parseTime : String → Option Time) (v : JSON) :
    Except Err AlertResponse :=
  unmarshalStruct (unmarshalObject alertResponseFields (storeAlertResponse parseTime))
    { Status := "", Data := [], ErrorType := "", Error := "" } v

/-! ## API client (`internal/api/alertmanager.go`) -/

/-- The loop of `GetAlerts` over the decoded v2 alerts (alertmanager.go lines 81-88),
reading the clock from reading `k` on, once for each timestamp that is defaulted. -/
def GetAlerts.enrich (clk : Clock) : Nat → List Alert → List Alert
  | _, [] => []
  | k, alert :: rest =>
    let (alert, k) :=
      if alert.StartsAt.IsZero then ({ alert with StartsAt := clk k }, k + 1) else (alert, k)
    let (alert, k) :=
      if alert.EndsAt.IsZero then ({ alert with EndsAt := (clk k).Add (24 * Hour) }, k + 1)
      else (alert, k)
    alert :: GetAlerts.enrich clk k rest

/-- Go `func (c *AlertManagerClient) GetAlerts() ([]types.Alert, error)`
(alertmanager.go lines 54-91). `resp` is the outcome of `doRequest` and `io.ReadAll`:
an error, or the body, which is `none` when it is not well-formed JSON text. -/
def GetAlerts (parseTime : String → Option Time) (clk : Clock) (APIVersion : String)
    (resp : Except Err (Option JSON)) : Except Err (List Alert) :=
  match resp with
  | .error e => .error e
  | .ok body =>
    if APIVersion = "v1" then
      match body with
      | none => .error (.err "failed to decode v1 response")
      | some v =>
        match unmarshalAlertResponse parseTime v with
        | .error (.err e) => .error (.err ("failed to decode v1 response: " ++ e))
        | .error p => .error p
        | .ok response => .ok response.Data
    else
      match body with
      | none => .error (.err "failed to decode v2 response")
      | some v =>
        match unmarshalAlerts parseTime v with
        | .error (.err e) => .error (.err ("failed to decode v2 response: " ++ e))
        | .error p => .error p
        | .ok alerts => .ok (GetAlerts.enrich clk 0 alerts)

/-- Go `func (c *AlertManagerClient) GetSilences() ([]types.Silence, error)`
(alertmanager.go lines 93-107), on the same outcome of `doRequest`. -/
def GetSilences (parseTime : String → Option Time) (resp : Except Err (Option JSON)) :
    Except Err (List Silence) :=
  match resp with
  | .error e => .error e
  | .ok none => .error (.err "failed to decode response")
  | .ok (some v) =>
    match unmarshalSlice Silence.zero (unmarshalSilence parseTime) v with
    | .error (.err e) => .error (.err ("failed to decode response: " ++ e))
    | .error p => .error p
    | .ok silences => .ok silences

/-! ## Alert table (`cmd/alerts.go`)

The table is modelled up to the lines handed to the `tabwriter`: each line is the cells
of a row joined by a tab. Column alignment and `Duration.String` are left to the
libraries; the latter is the parameter `durationString`. -/

/-- Go `strings.Join(elems, sep)`. -/
def Join (elems : List String) (sep : String) : String := sep.intercalate elems

/-- Go `func getLabel(labels map[string]string, key string) string`
(cmd/alerts.go lines 198-203). -/
def getLabel (labels : StringMap) (key : String) : String :=
  match labels.lookup key with
  | some val => val
  | none => "-"

/-- Go `func getAnnotation(annotations map[string]string, keys ...string) string`
(cmd/alerts.go lines 205-212). -/
def getAnnotation (annotations : StringMap) : List String → String
  | [] => "-"
  | key :: keys =>
    match annotations.lookup key with
    | some val => val
    | none => getAnnotation annotations keys

/-- Go `time.Second`. -/
def Second : Duration := 1000000000

/-- Go `time.Minute`. -/
def Minute : Duration := 60 * Second

/-- The largest `time.Duration`, `1<<63 - 1`. -/
def maxDuration : Duration := 9223372036854775807

/-- The smallest `time.Duration`, `-1 << 63`. -/
def minDuration : Duration := -9223372036854775808

/-- Go `Time.Sub`: the difference, saturated to the range of `time.Duration`. -/
def Time.Sub (t u : Time) : Duration :=
  let d := t.nanos - u.nanos
  if d > maxDuration then maxDuration
  else if d < minDuration then minDuration
  else d

/-- Go `Duration.Round`: the nearest multiple of `m`, halfway values away from zero,
saturated to the range of `time.Duration`; `d` itself when `m ≤ 0`. -/
def Duration.Round (d m : Duration) : Duration :=
  if m ≤ 0 then d
  else
    let r := Int.tmod d m
    if d < 0 then
      let r := -r
      if r + r < m then d + r
      else if minDuration ≤ d - m + r then d - m + r
      else minDuration
    else
      if r + r < m then d - r
      else if d + m - r ≤ maxDuration then d + m - r
      else maxDuration

/-- Go `func formatDuration(d time.Duration) string` (cmd/alerts.go lines 214-222). -/
def formatDuration (durationString : Duration → String) (d : Duration) : String :=
  if d < Minute then durationString (Duration.Round d Second)
  else if d < Hour then durationString (Duration.Round d Minute)
  else durationString (Duration.Round d Hour)

/-- Go `func printNoAlertsMessage(filters alertFilters)` (cmd/alerts.go lines 140-165):
the line it prints. -/
def printNoAlertsMessage (filters : alertFilters) : String :=
  let states : List String := if filters.showSilenced then ["silenced"] else []
  let states := if filters.showInhibited then states ++ ["inhibited"] else states
  let states :=
    if filters.showActive ∨ (!filters.showAll ∧ states.length = 0) then states ++ ["active"]
    else states
  let msg := "No alerts found"
  let msg := if states.length > 0 then msg ++ " in state: " ++ Join states " or " else msg
  let msg :=
    if filters.severity ≠ "" then msg ++ " with severity '" ++ filters.severity ++ "'" else msg
  if filters.instance_ ≠ "" then msg ++ " from instance '" ++ filters.instance_ ++ "'" else msg

/-- The loop of `printAlerts` (cmd/alerts.go lines 177-194): the lines written for the
alerts, and the panic that stops the loop, if any. `time.Since` reads the clock once for
each row, from reading `k` on. With `showDetails` the row reads
`alert.AlertStatus.SilencedBy` through the pointer `alert.AlertStatus`, which is a nil
pointer dereference when the pointer is nil. -/
def printAlerts.rows (durationString : Duration → String) (clk : Clock) (showDetails : Bool) :
    Nat → List Alert → List String × Option Err
  | _, [] => ([], none)
  | k, alert :: rest =>
    let row := [getLabel alert.Labels "alertname", getLabel alert.Labels "severity",
      getAlertState alert, formatDuration durationString ((clk k).Sub alert.StartsAt),
      getLabel alert.Labels "instance",
      getAnnotation alert.Annotations ["summary", "description"]]
    if showDetails then
      match alert.AlertStatus with
      | none => ([], some (.panic "invalid memory address or nil pointer dereference"))
      | some status =>
        let silencedBy := Join status.SilencedBy ","
        let inhibitedBy := Join status.InhibitedBy ","
        let row := row ++ [silencedBy, inhibitedBy]
        let (lines, failure) := printAlerts.rows durationString clk showDetails (k + 1) rest
        (Join row "\t" :: lines, failure)
    else
      let (lines, failure) := printAlerts.rows durationString clk showDetails (k + 1) rest
      (Join row "\t" :: lines, failure)

/-- Go `func printAlerts(alerts []types.Alert, showDetails bool)`
(cmd/alerts.go lines 167-195): the lines written, header first, and the panic, if any. -/
def printAlerts (durationString : Duration → String) (clk : Clock) (alerts : List Alert)
    (showDetails : Bool) : List String × Option Err :=
  let headers := ["ALERT", "SEVERITY", "STATE", "SINCE", "INSTANCE", "SUMMARY"]
  let headers := if showDetails then headers ++ ["SILENCED BY", "INHIBITED BY"] else headers
  let (lines, failure) := printAlerts.rows durationString clk showDetails 0 alerts
  (Join headers "\t" :: lines, failure)

/-- Go `func listAlerts(cmd *cobra.Command, args []string)` (cmd/alerts.go lines 51-69),
on the flags read by `getFilters`: the lines printed and the failure, if any, where
`os.Exit(1)` is the failure `exit status 1`. `clk` is the clock during `GetAlerts` and
`clkPrint` the clock from then on. -/
def listAlerts (parseTime : String → Option Time) (durationString : Duration → String)
    (clk clkPrint : Clock) (APIVersion : String) (resp : Except Err (Option JSON))
    (filters : alertFilters) : List String × Option Err :=
  match GetAlerts parseTime clk APIVersion resp with
  | .error (.err e) => (["Error getting alerts: " ++ e], some (.err "exit status 1"))
  | .error p => ([], some p)
  | .ok alerts =>
    let filteredAlerts := applyFilters alerts filters
    if filteredAlerts.length = 0 then ([printNoAlertsMessage filters], none)
    else printAlerts durationString clkPrint filteredAlerts filters.showAll

/-! # Theorems -/

/-! ## State classifiers -/

/-- C1. `Alert.GetState` follows the five-step precedence: the structured state when it
is present and non-empty; else `silenced` when the structured status has a non-empty
`silencedBy` or `mutedBy`; else `inhibited` when it has a non-empty `inhibitedBy`; else
the scalar status when it is non-empty; else `active`. -/
theorem Alert.GetState_precedence (a : Alert) :
    (∀ st, a.AlertStatus = some st → st.State ≠ "" → a.GetState = st.State) ∧
    (∀ st, a.AlertStatus = some st → st.State = "" →
      (st.SilencedBy ≠ [] ∨ st.MutedBy ≠ []) → a.GetState = "silenced") ∧
    (∀ st, a.AlertStatus = some st → st.State = "" → st.SilencedBy = [] → st.MutedBy = [] →
      st.InhibitedBy ≠ [] → a.GetState = "inhibited") ∧
    ((a.AlertStatus = none ∨ ∃ st, a.AlertStatus = some st ∧ st.State = "" ∧
        st.SilencedBy = [] ∧ st.MutedBy = [] ∧ st.InhibitedBy = []) →
      (a.Status ≠ "" → a.GetState = a.Status) ∧ (a.Status = "" → a.GetState = "active")) := by
  refine ⟨?_, ?_, ?_, ?_⟩
  · intro st h hs
    simp [Alert.GetState, Alert.GetState.v2, h, hs]
  · intro st h hs hl
    have hl2 : 0 < st.SilencedBy.length ∨ 0 < st.MutedBy.length := by
      rcases hl with hl | hl
      · exact Or.inl (List.length_pos.mpr hl)
      · exact Or.inr (List.length_pos.mpr hl)
    simp [Alert.GetState, Alert.GetState.v2, h, hs, hl2]
  · intro st h hs h1 h2 h3
    have h3p : 0 < st.InhibitedBy.length := List.length_pos.mpr h3
    simp [Alert.GetState, Alert.GetState.v2, h, hs, h1, h2, h3p]
  · intro h
    have hv : Alert.GetState.v2 a = none := by
      rcases h with h | ⟨st, h, hs, h1, h2, h3⟩
      · simp [Alert.GetState.v2, h]
      · simp [Alert.GetState.v2, h, hs, h1, h2, h3]
    constructor
    · intro hne
      simp [Alert.GetState, hv, hne]
    · intro he
      simp [Alert.GetState, hv, he]

/-- Witness for C1: lines of the precedence at concrete alerts. -/
theorem Alert.GetState_precedence_witness :
    ({ Alert.zero with
        AlertStatus := some ⟨"", [], [], ["m1"]⟩, Status := "firing" } : Alert).GetState
      = "silenced" ∧
    ({ Alert.zero with Status := "firing" } : Alert).GetState = "firing" :=
  ⟨(Alert.GetState_precedence _).2.1 ⟨"", [], [], ["m1"]⟩ rfl rfl (Or.inr (by decide)),
   ((Alert.GetState_precedence { Alert.zero with Status := "firing" }).2.2.2
      (Or.inl rfl)).1 (by decide)⟩

/-! ## Filter engine -/

theorem applyFilters.step_eq (filters : alertFilters) (result : List Alert) (alert : Alert) :
    applyFilters.step filters result alert =
      if applyFilters.keeps filters alert then result ++ [alert] else result := by
  unfold applyFilters.keeps applyFilters.step
  simp only []
  split_ifs <;> simp_all

theorem applyFilters.foldl_eq (filters : alertFilters) (alerts result : List Alert) :
    alerts.foldl (applyFilters.step filters) result =
      result ++ alerts.filter (applyFilters.keeps filters) := by
  induction alerts generalizing result with
  | nil => simp
  | cons a rest ih =>
    rw [List.foldl_cons, ih, applyFilters.step_eq, List.filter_cons]
    by_cases h : applyFilters.keeps filters a <;> simp [h]

theorem applyFilters_eq_filter (alerts : List Alert) (filters : alertFilters) :
    applyFilters alerts filters = alerts.filter (applyFilters.keeps filters) := by
  simp [applyFilters, applyFilters.foldl_eq]

theorem applyFilters.keeps_iff (f : alertFilters) (a : Alert) :
    applyFilters.keeps f a = true ↔
      ((f.severity ≠ "" → mapIndex a.Labels "severity" = f.severity) ∧
       (f.instance_ ≠ "" → mapIndex a.Labels "instance" = f.instance_) ∧
       (f.showAll = true ∨
        (f.showSilenced = true ∧ getAlertState a = "silenced") ∨
        (f.showInhibited = true ∧ getAlertState a = "inhibited") ∨
        (f.showActive = true ∧ getAlertState a = "active") ∨
        (f.showAll = false ∧ f.showSilenced = false ∧ f.showInhibited = false ∧
          f.showActive = false ∧ getAlertState a = "active"))) := by
  unfold applyFilters.keeps applyFilters.step
  simp only [decide_eq_true_eq]
  split_ifs <;> simp_all

/-- C2. `applyFilters` returns exactly the input alerts, in their original order and each
at most once, that pass the severity filter when it is set, pass the instance filter
when it is set, and are selected by the state flags: `showAll`, or a set flag that
matches the filter state, or no state flag at all and filter state `active`. With no
flag set the result is the alerts whose filter state is `active`. -/
theorem applyFilters_spec (alerts : List Alert) (f : alertFilters) :
    applyFilters alerts f =
      alerts.filter (fun a => decide (
        (f.severity ≠ "" → mapIndex a.Labels "severity" = f.severity) ∧
        (f.instance_ ≠ "" → mapIndex a.Labels "instance" = f.instance_) ∧
        (f.showAll = true ∨
         (f.showSilenced = true ∧ getAlertState a = "silenced") ∨
         (f.showInhibited = true ∧ getAlertState a = "inhibited") ∨
         (f.showActive = true ∧ getAlertState a = "active") ∨
         (f.showAll = false ∧ f.showSilenced = false ∧ f.showInhibited = false ∧
           f.showActive = false ∧ getAlertState a = "active")))) ∧
    (applyFilters alerts f).Sublist alerts ∧
    applyFilters alerts
        { showAll := false, showSilenced := false, showInhibited := false,
          showActive := false, severity := "", instance_ := "" } =
      alerts.filter (fun a => decide (getAlertState a = "active")) := by
  refine ⟨?_, ?_, ?_⟩
  · rw [applyFilters_eq_filter]
    apply List.filter_congr
    intro a _
    rw [Bool.eq_iff_iff, applyFilters.keeps_iff, decide_eq_true_iff]
  · rw [applyFilters_eq_filter]
    exact List.filter_sublist _
  · rw [applyFilters_eq_filter]
    apply List.filter_congr
    intro a _
    rw [Bool.eq_iff_iff, applyFilters.keeps_iff, decide_eq_true_iff]
    simp

/-- C5, as stated, fails: with `showAll` set and the severity filter `warning`, an alert
of severity `critical` is not returned. -/
theorem applyFilters_showAll_counterexample :
    applyFilters [{ Alert.zero with Labels := [("severity", "critical")] }]
        { showAll := true, showSilenced := false, showInhibited := false,
          showActive := false, severity := "warning", instance_ := "" } = [] ∧
    applyFilters [{ Alert.zero with Labels := [("severity", "critical")] }]
        { showAll := true, showSilenced := false, showInhibited := false,
          showActive := false, severity := "warning", instance_ := "" } ≠
      [{ Alert.zero with Labels := [("severity", "critical")] }] := by
  constructor <;> decide

/-- C5, amended. With `showAll` set, `applyFilters` returns all the input alerts that pass
the severity and instance filters, whatever the three other state flags are; it returns
all the input alerts when the severity and instance filters are both empty. -/
theorem applyFilters_showAll (alerts : List Alert) (f : alertFilters)
    (hall : f.showAll = true) :
    applyFilters alerts f =
      alerts.filter (fun a => decide (
        (f.severity ≠ "" → mapIndex a.Labels "severity" = f.severity) ∧
        (f.instance_ ≠ "" → mapIndex a.Labels "instance" = f.instance_))) ∧
    (f.severity = "" → f.instance_ = "" → applyFilters alerts f = alerts) := by
  have key : ∀ a, applyFilters.keeps f a = decide (
        (f.severity ≠ "" → mapIndex a.Labels "severity" = f.severity) ∧
        (f.instance_ ≠ "" → mapIndex a.Labels "instance" = f.instance_)) := by
    intro a
    rw [Bool.eq_iff_iff, applyFilters.keeps_iff, decide_eq_true_iff]
    simp [hall]
  refine ⟨?_, ?_⟩
  · rw [applyFilters_eq_filter]
    exact List.filter_congr (fun a _ => key a)
  · intro hs hi
    rw [applyFilters_eq_filter, List.filter_eq_self]
    intro a _
    rw [key]
    simp [hs, hi]

/-- Witness for the amended C5: two alerts, `showAll` with the severity filter
`critical`. -/
theorem applyFilters_showAll_witness :
    applyFilters
        [{ Alert.zero with Labels := [("severity", "critical")] },
         { Alert.zero with Labels := [("severity", "warning")] }]
        { showAll := true, showSilenced := true, showInhibited := false,
          showActive := false, severity := "critical", instance_ := "" } =
      [{ Alert.zero with Labels := [("severity", "critical")] }] := by
  rw [(applyFilters_showAll _ _ rfl).1]
  decide

/-- C7. On an alert whose structured status is present with an empty state and whose
scalar status is empty, `Alert.GetState` and `getAlertState` agree; both give `silenced`
when `silencedBy` is non-empty. -/
theorem GetState_eq_getAlertState (a : Alert) (st : AlertStatus)
    (hst : a.AlertStatus = some st) (hstate : st.State = "") (hscalar : a.Status = "") :
    a.GetState = getAlertState a ∧
    (st.SilencedBy ≠ [] → a.GetState = "silenced" ∧ getAlertState a = "silenced") := by
  have hagree : a.GetState = getAlertState a := by
    simp only [Alert.GetState, Alert.GetState.v2, getAlertState, hst, hstate, hscalar]
    split_ifs <;> simp_all
  refine ⟨hagree, ?_⟩
  intro hne
  have hp : 0 < st.SilencedBy.length := List.length_pos.mpr hne
  have : getAlertState a = "silenced" := by
    simp [getAlertState, hst, hp]
  exact ⟨hagree.trans this, this⟩

/-- Witness for C7: the status `{"state":"","silencedBy":["x"],"inhibitedBy":[]}`. -/
theorem GetState_eq_getAlertState_witness :
    ({ Alert.zero with AlertStatus := some ⟨"", ["x"], [], []⟩ } : Alert).GetState = "silenced" ∧
    getAlertState { Alert.zero with AlertStatus := some ⟨"", ["x"], [], []⟩ } = "silenced" :=
  (GetState_eq_getAlertState { Alert.zero with AlertStatus := some ⟨"", ["x"], [], []⟩ }
    ⟨"", ["x"], [], []⟩ rfl rfl rfl).2 (by decide)

/-- C8. On an alert whose structured status has a non-empty state `s` and empty
`silencedBy`, `mutedBy` and `inhibitedBy`, `Alert.GetState` returns `s` and
`getAlertState` returns `active`; for `s = "acknowledged"` the two differ, and
`applyFilters` with no flag set keeps the alert. -/
theorem GetState_ne_getAlertState (a : Alert) (st : AlertStatus)
    (hst : a.AlertStatus = some st) (hstate : st.State ≠ "")
    (hsil : st.SilencedBy = []) (hmute : st.MutedBy = []) (hinh : st.InhibitedBy = []) :
    a.GetState = st.State ∧ getAlertState a = "active" ∧
    (st.State = "acknowledged" → a.GetState ≠ getAlertState a) ∧
    (∀ alerts : List Alert, a ∈ alerts →
      a ∈ applyFilters alerts
        { showAll := false, showSilenced := false, showInhibited := false,
          showActive := false, severity := "", instance_ := "" }) := by
  have h1 : a.GetState = st.State := by
    simp [Alert.GetState, Alert.GetState.v2, hst, hstate]
  have h2 : getAlertState a = "active" := by
    simp [getAlertState, hst, hsil, hmute, hinh]
  refine ⟨h1, h2, ?_, ?_⟩
  · intro hack
    rw [h1, h2, hack]
    decide
  · intro alerts hmem
    rw [applyFilters_eq_filter, List.mem_filter]
    refine ⟨hmem, ?_⟩
    rw [applyFilters.keeps_iff]
    simp [h2]

/-- Witness for C8: the status `{"state":"acknowledged","silencedBy":[],"inhibitedBy":[]}`. -/
theorem GetState_ne_getAlertState_witness :
    ({ Alert.zero with
        AlertStatus := some ⟨"acknowledged", [], [], []⟩ } : Alert).GetState = "acknowledged" ∧
    getAlertState { Alert.zero with AlertStatus := some ⟨"acknowledged", [], [], []⟩ }
      = "active" :=
  have h := GetState_ne_getAlertState
    { Alert.zero with AlertStatus := some ⟨"acknowledged", [], [], []⟩ }
    ⟨"acknowledged", [], [], []⟩ rfl (by decide) rfl rfl rfl
  ⟨h.1, h.2.1⟩

/-! ## Matcher parser -/

theorem Index_eq_none_iff (s : List Char) (sep : Char) : Index s sep = none ↔ sep ∉ s := by
  induction s with
  | nil => simp [Index]
  | cons c rest ih =>
    by_cases h : c = sep
    · simp [Index, h]
    · have h2 : ¬ sep = c := fun e => h e.symm
      simp [Index, h, h2, ih]

theorem Index_append_cons (pre post : List Char) (sep : Char) (h : sep ∉ pre) :
    Index (pre ++ sep :: post) sep = some pre.length := by
  induction pre with
  | nil => simp [Index]
  | cons c rest ih =>
    have hc : ¬ c = sep := fun e => h (by simp [e])
    have hr : sep ∉ rest := fun e => h (by simp [e])
    simp [Index, hc, ih hr]

theorem exists_first_split (s : List Char) (sep : Char) (h : sep ∈ s) :
    ∃ pre post, s = pre ++ sep :: post ∧ sep ∉ pre := by
  induction s with
  | nil => cases h
  | cons c rest ih =>
    by_cases hc : c = sep
    · exact ⟨[], rest, by simp [hc], by simp⟩
    · have hr : sep ∈ rest := by
        rcases List.mem_cons.mp h with e | e
        · exact absurd e.symm hc
        · exact e
      obtain ⟨pre, post, h1, h2⟩ := ih hr
      refine ⟨c :: pre, post, by simp [h1], ?_⟩
      intro hm
      rcases List.mem_cons.mp hm with e | e
      · exact hc e.symm
      · exact h2 e

theorem SplitN2_of_not_mem (s : List Char) (sep : Char) (h : sep ∉ s) :
    SplitN2 s sep = [s] := by
  unfold SplitN2
  simp only []
  split_ifs
  · rfl
  · rw [(Index_eq_none_iff s sep).mpr h]

theorem SplitN2_append_cons (pre post : List Char) (sep : Char) (h : sep ∉ pre) :
    SplitN2 (pre ++ sep :: post) sep = [pre, post] := by
  unfold SplitN2
  simp only []
  rw [Index_append_cons pre post sep h]
  have hlen : ¬ (min 2 ((pre ++ sep :: post).length + 1) - 1 = 0) := by
    simp only [List.length_append, List.length_cons]
    omega
  rw [if_neg hlen]
  simp

theorem TrimSpace_isTrimOf (s : List Char) : IsTrimOf (TrimSpace s) s := by
  refine ⟨s.takeWhile IsSpace, ((s.dropWhile IsSpace).reverse.takeWhile IsSpace).reverse,
    ?_, ?_, ?_, ?_, ?_⟩
  · have h1 := List.takeWhile_append_dropWhile IsSpace s
    have h2 := List.takeWhile_append_dropWhile IsSpace (s.dropWhile IsSpace).reverse
    have h3 : s.dropWhile IsSpace =
        ((s.dropWhile IsSpace).reverse.dropWhile IsSpace).reverse ++
          ((s.dropWhile IsSpace).reverse.takeWhile IsSpace).reverse := by
      rw [← List.reverse_append, h2, List.reverse_reverse]
    unfold TrimSpace
    rw [List.append_assoc, ← h3, h1]
  · intro c hc
    exact List.mem_takeWhile_imp hc
  · intro c hc
    exact List.mem_takeWhile_imp (List.mem_reverse.mp hc)
  · intro c hc
    unfold TrimSpace at hc
    by_cases hnil : (s.dropWhile IsSpace).reverse.dropWhile IsSpace = []
    · rw [hnil] at hc
      simp at hc
    · have h2 := List.takeWhile_append_dropWhile IsSpace (s.dropWhile IsSpace).reverse
      have h3 : s.dropWhile IsSpace =
          ((s.dropWhile IsSpace).reverse.dropWhile IsSpace).reverse ++
            ((s.dropWhile IsSpace).reverse.takeWhile IsSpace).reverse := by
        rw [← List.reverse_append, h2, List.reverse_reverse]
      have hne : ((s.dropWhile IsSpace).reverse.dropWhile IsSpace).reverse ≠ [] := by
        simpa using hnil
      have h4 : (s.dropWhile IsSpace).head? = some c := by
        rw [h3, List.head?_append_of_ne_nil _ hne]
        exact hc
      have h5 := List.head?_dropWhile_not IsSpace s
      rw [h4] at h5
      simpa using h5
  · intro c hc
    unfold TrimSpace at hc
    rw [List.getLast?_reverse] at hc
    have h5 := List.head?_dropWhile_not IsSpace (s.dropWhile IsSpace).reverse
    rw [hc] at h5
    simpa using h5

/-- C4. `parseMatcher` fails exactly on the inputs without `=`. On `pre ++ "=" ++ post`
with no `=` in `pre` it succeeds; the name is `pre` trimmed, `isRegex` holds exactly when
`post` begins with `~`, and the value is `post`, without that one leading `~` when
present, trimmed. The three documented examples are evaluated. -/
theorem parseMatcher_spec (input : String) :
    ((∃ e, parseMatcher input = .error e) ↔ '=' ∉ input.data) ∧
    (∀ pre post : List Char, input.data = pre ++ '=' :: post → '=' ∉ pre →
      ∃ m, parseMatcher input = .ok m ∧
        IsTrimOf m.Name.data pre ∧
        (m.IsRegex = true ↔ ∃ rest, post = '~' :: rest) ∧
        (∀ rest, post = '~' :: rest → IsTrimOf m.Value.data rest) ∧
        ((¬ ∃ rest, post = '~' :: rest) → IsTrimOf m.Value.data post)) ∧
    parseMatcher "env=~prod.*" = .ok { Name := "env", Value := "prod.*", IsRegex := true } ∧
    parseMatcher "env=prod" = .ok { Name := "env", Value := "prod", IsRegex := false } ∧
    (∃ e, parseMatcher "noequalsign" = .error e) := by
  have hsucc : ∀ pre post : List Char, input.data = pre ++ '=' :: post → '=' ∉ pre →
      ∃ m, parseMatcher input = .ok m ∧
        IsTrimOf m.Name.data pre ∧
        (m.IsRegex = true ↔ ∃ rest, post = '~' :: rest) ∧
        (∀ rest, post = '~' :: rest → IsTrimOf m.Value.data rest) ∧
        ((¬ ∃ rest, post = '~' :: rest) → IsTrimOf m.Value.data post) := by
    intro pre post hin hpre
    unfold parseMatcher
    rw [hin, SplitN2_append_cons pre post '=' hpre]
    refine ⟨_, rfl, TrimSpace_isTrimOf pre, ?_, ?_, ?_⟩
    · cases post with
      | nil => simp [HasPrefix]
      | cons c rest => simp [HasPrefix]
    · intro rest hrest
      subst hrest
      simpa [HasPrefix, TrimPrefix] using TrimSpace_isTrimOf rest
    · intro hno
      cases post with
      | nil => simpa [HasPrefix] using TrimSpace_isTrimOf []
      | cons c rest =>
        have hc : ¬ c = '~' := fun e => hno ⟨rest, by rw [e]⟩
        simpa [HasPrefix, hc] using TrimSpace_isTrimOf (c :: rest)
  refine ⟨?_, hsucc, rfl, rfl, ⟨_, rfl⟩⟩
  constructor
  · rintro ⟨e, he⟩ hmem
    obtain ⟨pre, post, hsplit, hpre⟩ : ∃ pre post, input.data = pre ++ '=' :: post ∧
        '=' ∉ pre := by
      exact exists_first_split input.data '=' hmem
    obtain ⟨m, hm, _⟩ := hsucc pre post hsplit hpre
    rw [hm] at he
    cases he
  · intro hno
    unfold parseMatcher
    rw [SplitN2_of_not_mem _ _ hno]
    exact ⟨_, rfl⟩

/-! ## Status decoding -/

theorem findField_mem {ι : Type} (fields : List (field ι)) (key : String) (f : field ι)
    (h : findField fields key = some f) : f ∈ typeFields fields := by
  unfold findField at h
  split at h
  · rename_i g hg
    cases h
    exact List.mem_of_find?_eq_some hg
  · exact List.mem_of_find?_eq_some h

theorem auxFields_kept :
    ∀ f ∈ typeFields auxFields, f.id ≠ AuxField.Status ∧ f.id ≠ AuxField.AlertStatus := by
  decide

theorem storeAux_frame (parseTime : String → Option Time) (al : Alert) (r r' : Option JSON)
    (f : AuxField) (v : JSON) (h1 : f ≠ AuxField.RawStatus) (h2 : f ≠ AuxField.Status)
    (h3 : f ≠ AuxField.AlertStatus) :
    (∃ e, storeAux parseTime ⟨al, r⟩ f v = .error e ∧
        storeAux parseTime ⟨al, r'⟩ f v = .error e) ∨
    (∃ al2, storeAux parseTime ⟨al, r⟩ f v = .ok ⟨al2, r⟩ ∧
        storeAux parseTime ⟨al, r'⟩ f v = .ok ⟨al2, r'⟩ ∧
        al2.Status = al.Status ∧ al2.AlertStatus = al.AlertStatus) := by
  cases f
  case RawStatus => exact absurd rfl h1
  case Status => exact absurd rfl h2
  case AlertStatus => exact absurd rfl h3
  case Labels =>
    simp only [storeAux]
    cases unmarshalStringMap al.Labels v <;> simp [bind, Except.bind, pure, Except.pure]
  case Annotations =>
    simp only [storeAux]
    cases unmarshalStringMap al.Annotations v <;> simp [bind, Except.bind, pure, Except.pure]
  case StartsAt =>
    simp only [storeAux]
    cases unmarshalTime parseTime al.StartsAt v <;> simp [bind, Except.bind, pure, Except.pure]
  case EndsAt =>
    simp only [storeAux]
    cases unmarshalTime parseTime al.EndsAt v <;> simp [bind, Except.bind, pure, Except.pure]
  case Fingerprint =>
    simp only [storeAux]
    cases unmarshalString al.Fingerprint v <;> simp [bind, Except.bind, pure, Except.pure]
  case UpdatedAt =>
    simp only [storeAux]
    cases unmarshalTime parseTime al.UpdatedAt v <;> simp [bind, Except.bind, pure, Except.pure]

theorem statusValue_cons_of_not (k : String) (v : JSON) (rest : List (String × JSON))
    (h : isStatusKey k = false) : statusValue ((k, v) :: rest) = statusValue rest := by
  simp [statusValue, List.filter_cons, h]

theorem statusValue_cons_of_key (k : String) (v : JSON) (rest : List (String × JSON))
    (h : isStatusKey k = true) :
    (statusValue rest = none → statusValue ((k, v) :: rest) = some v) ∧
    (∀ w, statusValue rest = some w → statusValue ((k, v) :: rest) = some w) := by
  unfold statusValue
  rw [List.filter_cons]
  simp only [h, if_true]
  cases hl : rest.filter (fun kv => isStatusKey kv.1) with
  | nil => simp
  | cons b l => simp

theorem storeAux_key (k : String) (f : field AuxField)
    (hf : findField auxFields k = some f) :
    (isStatusKey k = true ∧ f.id = AuxField.RawStatus) ∨
    (isStatusKey k = false ∧ f.id ≠ AuxField.RawStatus ∧ f.id ≠ AuxField.Status ∧
      f.id ≠ AuxField.AlertStatus) := by
  have hk := auxFields_kept f (findField_mem auxFields k f hf)
  by_cases hid : f.id = AuxField.RawStatus
  · left
    exact ⟨by simp [isStatusKey, hf, hid], hid⟩
  · right
    exact ⟨by simp [isStatusKey, hf, hid], hid, hk.1, hk.2⟩

theorem unmarshalObject_aux_frame (parseTime : String → Option Time)
    (ms : List (String × JSON)) (al : Alert) (r : Option JSON) (x : Aux)
    (h : unmarshalObject auxFields (storeAux parseTime) ⟨al, r⟩ ms = .ok x) :
    (statusValue ms = none → x.RawStatus = r) ∧
    (∀ v, statusValue ms = some v → x.RawStatus = some v) ∧
    x.Alias.Status = al.Status ∧ x.Alias.AlertStatus = al.AlertStatus := by
  induction ms generalizing al r with
  | nil =>
    simp only [unmarshalObject] at h
    cases h
    simp [statusValue]
  | cons kv rest ih =>
    obtain ⟨k, v⟩ := kv
    cases hf : findField auxFields k with
    | none =>
      have hk : isStatusKey k = false := by simp [isStatusKey, hf]
      simp only [unmarshalObject, hf] at h
      rw [statusValue_cons_of_not k v rest hk]
      exact ih al r h
    | some f =>
      rcases storeAux_key k f hf with ⟨hk, hid⟩ | ⟨hk, h1, h2, h3⟩
      · simp only [unmarshalObject, hf, hid, storeAux, pure, Except.pure] at h
        obtain ⟨i1, i2, i3, i4⟩ := ih al (some v) h
        have hc := statusValue_cons_of_key k v rest hk
        refine ⟨?_, ?_, i3, i4⟩
        · intro hn
          cases hr : statusValue rest with
          | none => rw [hc.1 hr] at hn; cases hn
          | some w => rw [hc.2 w hr] at hn; cases hn
        · intro w hw
          cases hr : statusValue rest with
          | none =>
            rw [hc.1 hr] at hw
            cases hw
            exact i1 hr
          | some w2 =>
            rw [hc.2 w2 hr] at hw
            cases hw
            exact i2 _ hr
      · rw [statusValue_cons_of_not k v rest hk]
        rcases storeAux_frame parseTime al r r f.id v h1 h2 h3 with
          ⟨e, he, _⟩ | ⟨al2, hok, _, hs, ha⟩
        · simp [unmarshalObject, hf, he] at h
        · simp only [unmarshalObject, hf, hok] at h
          obtain ⟨i1, i2, i3, i4⟩ := ih al2 r h
          exact ⟨i1, i2, i3.trans hs, i4.trans ha⟩

theorem unmarshalObject_aux_filter (parseTime : String → Option Time)
    (ms : List (String × JSON)) (al : Alert) (r r' : Option JSON) :
    (unmarshalObject auxFields (storeAux parseTime) ⟨al, r⟩ ms).map (fun x => x.Alias) =
      (unmarshalObject auxFields (storeAux parseTime) ⟨al, r'⟩
        (ms.filter (fun kv => !isStatusKey kv.1))).map (fun x => x.Alias) := by
  induction ms generalizing al r r' with
  | nil => simp [unmarshalObject, Except.map]
  | cons kv rest ih =>
    obtain ⟨k, v⟩ := kv
    cases hf : findField auxFields k with
    | none =>
      have hk : isStatusKey k = false := by simp [isStatusKey, hf]
      simp only [List.filter_cons, hk, Bool.not_false, if_true, unmarshalObject, hf]
      exact ih al r r'
    | some f =>
      rcases storeAux_key k f hf with ⟨hk, hid⟩ | ⟨hk, h1, h2, h3⟩
      · simp only [List.filter_cons, hk, Bool.not_true, unmarshalObject, hf, hid, storeAux,
          pure, Except.pure]
        exact ih al (some v) r'
      · simp only [List.filter_cons, hk, Bool.not_false, if_true, unmarshalObject, hf]
        rcases storeAux_frame parseTime al r r' f.id v h1 h2 h3 with
          ⟨e, he, he'⟩ | ⟨al2, hok, hok', _, _⟩
        · simp [he, he', Except.map]
        · simp only [hok, hok']
          exact ih al2 r r'

theorem Alert.UnmarshalJSON_obj (parseTime : String → Option Time) (a0 : Alert)
    (ms : List (String × JSON)) :
    Alert.UnmarshalJSON parseTime a0 (.obj ms) =
      match unmarshalObject auxFields (storeAux parseTime) ⟨a0, none⟩ ms with
      | .error e => .error e
      | .ok aux =>
        match aux.RawStatus with
        | none => .ok aux.Alias
        | some raw =>
          match unmarshalAlertStatus AlertStatus.zero raw with
          | .ok status => .ok { aux.Alias with AlertStatus := some status }
          | .error _ =>
            match unmarshalString "" raw with
            | .ok statusStr => .ok { aux.Alias with Status := statusStr }
            | .error _ => .ok aux.Alias := by
  unfold Alert.UnmarshalJSON unmarshalAux
  simp only [bind, Except.bind, pure, Except.pure]
  cases hfold : unmarshalObject auxFields (storeAux parseTime) ⟨a0, none⟩ ms <;> rfl

theorem Alert.UnmarshalJSON_isOk (parseTime : String → Option Time) (a0 : Alert)
    (ms : List (String × JSON)) :
    (Alert.UnmarshalJSON parseTime a0 (.obj ms)).isOk =
      ((unmarshalObject auxFields (storeAux parseTime) ⟨a0, none⟩ ms).map
        (fun x => x.Alias)).isOk := by
  rw [Alert.UnmarshalJSON_obj]
  cases unmarshalObject auxFields (storeAux parseTime) ⟨a0, none⟩ ms with
  | error e => rfl
  | ok aux =>
    simp only [Except.map]
    cases aux.RawStatus with
    | none => rfl
    | some raw =>
      simp only []
      cases unmarshalAlertStatus AlertStatus.zero raw with
      | ok st => rfl
      | error e =>
        simp only []
        cases unmarshalString "" raw <;> rfl

theorem Alert.UnmarshalJSON_isOk_filter (parseTime : String → Option Time) (a0 : Alert)
    (ms : List (String × JSON)) :
    (Alert.UnmarshalJSON parseTime a0 (.obj ms)).isOk =
      (Alert.UnmarshalJSON parseTime a0
        (.obj (ms.filter (fun kv => !isStatusKey kv.1)))).isOk := by
  rw [Alert.UnmarshalJSON_isOk, Alert.UnmarshalJSON_isOk,
    unmarshalObject_aux_filter parseTime ms a0 none none]

/-- C3. Decoding an alert JSON object never fails because of its status field: whether
`Alert.UnmarshalJSON` succeeds is unchanged when the status members are removed, or when
the value of a status member is replaced by any other JSON value. On success the status
value is resolved in order: when it decodes as `AlertStatus`, the structured form is set
and the scalar form stays empty; otherwise a bare JSON string is stored as the scalar
form and the structured form stays absent; otherwise both stay unset. A decoded alert
never has both forms populated. -/
theorem Alert.UnmarshalJSON_status (parseTime : String → Option Time)
    (members : List (String × JSON)) :
    ((Alert.UnmarshalJSON parseTime Alert.zero (.obj members)).isOk =
      (Alert.UnmarshalJSON parseTime Alert.zero
        (.obj (members.filter (fun kv => !isStatusKey kv.1)))).isOk) ∧
    (∀ (pre post : List (String × JSON)) (k : String) (v v' : JSON),
      members = pre ++ (k, v) :: post → isStatusKey k = true →
      (Alert.UnmarshalJSON parseTime Alert.zero (.obj members)).isOk =
        (Alert.UnmarshalJSON parseTime Alert.zero (.obj (pre ++ (k, v') :: post))).isOk) ∧
    (∀ a, Alert.UnmarshalJSON parseTime Alert.zero (.obj members) = .ok a →
      (statusValue members = none → a.AlertStatus = none ∧ a.Status = "") ∧
      (∀ raw st, statusValue members = some raw →
        unmarshalAlertStatus AlertStatus.zero raw = .ok st →
        a.AlertStatus = some st ∧ a.Status = "") ∧
      (∀ s, statusValue members = some (.str s) → a.Status = s ∧ a.AlertStatus = none) ∧
      (∀ raw e, statusValue members = some raw →
        unmarshalAlertStatus AlertStatus.zero raw = .error e → (∀ s, raw ≠ .str s) →
        a.Status = "" ∧ a.AlertStatus = none) ∧
      (a.AlertStatus = none ∨ a.Status = "")) := by
  refine ⟨Alert.UnmarshalJSON_isOk_filter parseTime Alert.zero members, ?_, ?_⟩
  · intro pre post k v v' hm hk
    rw [hm, Alert.UnmarshalJSON_isOk_filter parseTime Alert.zero (pre ++ (k, v) :: post),
      Alert.UnmarshalJSON_isOk_filter parseTime Alert.zero (pre ++ (k, v') :: post)]
    simp [List.filter_append, List.filter_cons, hk]
  · intro a h
    rw [Alert.UnmarshalJSON_obj] at h
    cases hfold : unmarshalObject auxFields (storeAux parseTime) ⟨Alert.zero, none⟩ members with
    | error e => rw [hfold] at h; cases h
    | ok aux =>
      rw [hfold] at h
      simp only [] at h
      obtain ⟨f1, f2, f3, f4⟩ := unmarshalObject_aux_frame parseTime members Alert.zero none aux hfold
      have hS : aux.Alias.Status = "" := f3
      have hA : aux.Alias.AlertStatus = none := f4
      have hstr : ∀ s, unmarshalAlertStatus AlertStatus.zero (.str s) =
          .error (.err "json: cannot unmarshal into Go struct") := fun s => rfl
      have key : (statusValue members = none → a = aux.Alias) ∧
          (∀ raw st, statusValue members = some raw →
            unmarshalAlertStatus AlertStatus.zero raw = .ok st →
            a = { aux.Alias with AlertStatus := some st }) ∧
          (∀ s, statusValue members = some (.str s) → a = { aux.Alias with Status := s }) ∧
          (∀ raw e, statusValue members = some raw →
            unmarshalAlertStatus AlertStatus.zero raw = .error e → (∀ s, raw ≠ .str s) →
            a = aux.Alias) := by
        refine ⟨?_, ?_, ?_, ?_⟩
        · intro hn
          rw [f1 hn] at h
          simp only [] at h
          cases h
          rfl
        · intro raw st hr hst
          rw [f2 raw hr] at h
          simp only [hst] at h
          cases h
          rfl
        · intro s hr
          rw [f2 _ hr] at h
          simp only [hstr s, unmarshalString] at h
          cases h
          rfl
        · intro raw e hr he hne
          rw [f2 raw hr] at h
          simp only [he] at h
          cases raw with
          | null => simp [unmarshalAlertStatus, unmarshalStruct] at he
          | str s => exact absurd rfl (hne s)
          | bool b => simp only [unmarshalString] at h; cases h; rfl
          | num n => simp only [unmarshalString] at h; cases h; rfl
          | arr xs => simp only [unmarshalString] at h; cases h; rfl
          | obj kvs => simp only [unmarshalString] at h; cases h; rfl
      obtain ⟨k1, k2, k3, k4⟩ := key
      refine ⟨?_, ?_, ?_, ?_, ?_⟩
      · intro hn
        rw [k1 hn]
        exact ⟨hA, hS⟩
      · intro raw st hr hst
        rw [k2 raw st hr hst]
        exact ⟨rfl, hS⟩
      · intro s hr
        rw [k3 s hr]
        exact ⟨rfl, hA⟩
      · intro raw e hr he hne
        rw [k4 raw e hr he hne]
        exact ⟨hS, hA⟩
      · cases hr : statusValue members with
        | none =>
          rw [k1 hr]
          exact Or.inl hA
        | some raw =>
          cases hst : unmarshalAlertStatus AlertStatus.zero raw with
          | ok st =>
            rw [k2 raw st hr hst]
            exact Or.inr hS
          | error e =>
            by_cases hs : ∃ s, raw = .str s
            · obtain ⟨s, rfl⟩ := hs
              rw [k3 s hr]
              exact Or.inl hA
            · rw [k4 raw e hr hst (fun s hh => hs ⟨s, hh⟩)]
              exact Or.inl hA

/-- Witness for C3: a v2 object status, a v1 bare string status and a numeric status, each
in an object with a label; all three decode, into the structured form, the scalar form
and neither. -/
theorem Alert.UnmarshalJSON_status_witness :
    Alert.UnmarshalJSON (fun _ => none) Alert.zero
        (.obj [("labels", .obj [("alertname", .str "Disk")]),
               ("status", .obj [("state", .str ""), ("silencedBy", .arr [.str "x"])])]) =
      .ok { Alert.zero with
              Labels := [("alertname", "Disk")],
              AlertStatus := some ⟨"", ["x"], [], []⟩ } ∧
    Alert.UnmarshalJSON (fun _ => none) Alert.zero
        (.obj [("labels", .obj [("alertname", .str "Disk")]), ("status", .str "firing")]) =
      .ok { Alert.zero with Labels := [("alertname", "Disk")], Status := "firing" } ∧
    Alert.UnmarshalJSON (fun _ => none) Alert.zero
        (.obj [("labels", .obj [("alertname", .str "Disk")]), ("status", .num "5")]) =
      .ok { Alert.zero with Labels := [("alertname", "Disk")] } ∧
    (Alert.UnmarshalJSON (fun _ => none) Alert.zero
        (.obj [("labels", .obj [("alertname", .str "Disk")]), ("status", .num "5")])).isOk =
      (Alert.UnmarshalJSON (fun _ => none) Alert.zero
        (.obj [("labels", .obj [("alertname", .str "Disk")])])).isOk :=
  ⟨rfl, rfl, rfl,
   (Alert.UnmarshalJSON_status (fun _ => none)
      [("labels", .obj [("alertname", .str "Disk")]), ("status", .num "5")]).1⟩

/-! ## Silence status -/

theorem silenceFields_kept :
    ∀ f ∈ typeFields silenceFields, f.id ≠ SilenceField.Status ∧ f.id ≠ SilenceField.StatusV2 := by
  decide

theorem storeSilence_frame (parseTime : String → Option Time) (s s' : Silence)
    (f : SilenceField) (v : JSON) (h1 : f ≠ SilenceField.Status)
    (h2 : f ≠ SilenceField.StatusV2) (h : storeSilence parseTime s f v = .ok s') :
    s'.Status = s.Status ∧ s'.StatusV2 = s.StatusV2 := by
  cases f
  case Status => exact absurd rfl h1
  case StatusV2 => exact absurd rfl h2
  case ID =>
    simp only [storeSilence] at h
    cases hx : unmarshalString s.ID v <;>
      simp [hx, bind, Except.bind, pure, Except.pure] at h
    subst h
    exact ⟨rfl, rfl⟩
  case Matchers =>
    simp only [storeSilence] at h
    cases hx : unmarshalSlice (⟨"", "", false⟩ : Matcher) unmarshalMatcher v <;>
      simp [hx, bind, Except.bind, pure, Except.pure] at h
    subst h
    exact ⟨rfl, rfl⟩
  case StartsAt =>
    simp only [storeSilence] at h
    cases hx : unmarshalTime parseTime s.StartsAt v <;>
      simp [hx, bind, Except.bind, pure, Except.pure] at h
    subst h
    exact ⟨rfl, rfl⟩
  case EndsAt =>
    simp only [storeSilence] at h
    cases hx : unmarshalTime parseTime s.EndsAt v <;>
      simp [hx, bind, Except.bind, pure, Except.pure] at h
    subst h
    exact ⟨rfl, rfl⟩
  case CreatedBy =>
    simp only [storeSilence] at h
    cases hx : unmarshalString s.CreatedBy v <;>
      simp [hx, bind, Except.bind, pure, Except.pure] at h
    subst h
    exact ⟨rfl, rfl⟩
  case Comment =>
    simp only [storeSilence] at h
    cases hx : unmarshalString s.Comment v <;>
      simp [hx, bind, Except.bind, pure, Except.pure] at h
    subst h
    exact ⟨rfl, rfl⟩

theorem unmarshalObject_silence_frame (parseTime : String → Option Time)
    (ms : List (String × JSON)) (cur s : Silence)
    (h : unmarshalObject silenceFields (storeSilence parseTime) cur ms = .ok s) :
    s.Status = cur.Status ∧ s.StatusV2 = cur.StatusV2 := by
  induction ms generalizing cur with
  | nil =>
    simp only [unmarshalObject] at h
    cases h
    exact ⟨rfl, rfl⟩
  | cons kv rest ih =>
    cases hf : findField silenceFields kv.1 with
    | none =>
      simp only [unmarshalObject, hf] at h
      exact ih cur h
    | some f =>
      have hk := silenceFields_kept f (findField_mem silenceFields kv.1 f hf)
      simp only [unmarshalObject, hf] at h
      cases hs : storeSilence parseTime cur f.id kv.2 with
      | error e => simp [hs] at h
      | ok next =>
        simp only [hs] at h
        obtain ⟨i1, i2⟩ := ih next h
        obtain ⟨j1, j2⟩ := storeSilence_frame parseTime cur next f.id kv.2 hk.1 hk.2 hs
        exact ⟨i1.trans j1, i2.trans j2⟩

theorem unmarshalSilence_frame (parseTime : String → Option Time) (cur s : Silence)
    (v : JSON) (h : unmarshalSilence parseTime cur v = .ok s) :
    s.Status = cur.Status ∧ s.StatusV2 = cur.StatusV2 := by
  cases v with
  | obj ms => exact unmarshalObject_silence_frame parseTime ms cur s h
  | null =>
    simp only [unmarshalSilence, unmarshalStruct] at h
    cases h
    exact ⟨rfl, rfl⟩
  | bool b => simp [unmarshalSilence, unmarshalStruct] at h
  | num n => simp [unmarshalSilence, unmarshalStruct] at h
  | str x => simp [unmarshalSilence, unmarshalStruct] at h
  | arr xs => simp [unmarshalSilence, unmarshalStruct] at h

theorem mapM_ok_mem {α β : Type} (f : α → Except Err β) (l : List α) (rs : List β)
    (h : l.mapM f = .ok rs) : ∀ r ∈ rs, ∃ x ∈ l, f x = .ok r := by
  induction l generalizing rs with
  | nil =>
    simp only [List.mapM_nil, pure, Except.pure] at h
    cases h
    intro r hr
    cases hr
  | cons a rest ih =>
    rw [List.mapM_cons] at h
    cases hfa : f a with
    | error e =>
      rw [hfa] at h
      cases h
    | ok b =>
      cases hm : rest.mapM f with
      | error e =>
        rw [hfa, hm] at h
        cases h
      | ok bs =>
        rw [hfa, hm] at h
        cases h
        intro r hr
        rcases List.mem_cons.mp hr with e | e
        · exact ⟨a, by simp, by rw [e]; exact hfa⟩
        · obtain ⟨x, hx, hfx⟩ := ih bs hm r e
          exact ⟨x, List.mem_cons_of_mem _ hx, hfx⟩

/-- No silence returned by `GetSilences` carries a status, whatever the response: the
two fields tagged `status` cancel each other, so every decoded silence classifies as
`active`. -/
theorem GetSilences_no_status (parseTime : String → Option Time)
    (resp : Except Err (Option JSON)) (silences : List Silence)
    (h : GetSilences parseTime resp = .ok silences) :
    ∀ s ∈ silences, s.Status = "" ∧ s.StatusV2 = none ∧ s.GetState = "active" := by
  intro s hs
  have hdec : ∃ v, unmarshalSlice Silence.zero (unmarshalSilence parseTime) v = .ok silences := by
    unfold GetSilences at h
    split at h
    · cases h
    · cases h
    · rename_i v
      refine ⟨v, ?_⟩
      split at h
      · cases h
      · cases h
      · rename_i l hl
        cases h
        exact hl
  obtain ⟨v, hv⟩ := hdec
  have hfr : s.Status = "" ∧ s.StatusV2 = none := by
    cases v with
    | arr elems =>
      simp only [unmarshalSlice] at hv
      obtain ⟨x, _, hx⟩ := mapM_ok_mem _ elems silences hv s hs
      exact unmarshalSilence_frame parseTime Silence.zero s x hx
    | null =>
      simp only [unmarshalSlice] at hv
      cases hv
      cases hs
    | bool b => simp [unmarshalSlice] at hv
    | num n => simp [unmarshalSlice] at hv
    | str x => simp [unmarshalSlice] at hv
    | obj xs => simp [unmarshalSlice] at hv
  refine ⟨hfr.1, hfr.2, ?_⟩
  simp [Silence.GetState, hfr.1, hfr.2]

/-- C6, evaluated at a failing input. A silences response with one element whose status
is the v2 object `{"state":"expired"}` and one whose status is the v1 string `"expired"`
decodes to two silences without any status, and `Silence.GetState` returns `active` for
both instead of `expired`. -/
theorem GetSilences_status_lost (parseTime : String → Option Time) :
    GetSilences parseTime (.ok (some (.arr
        [.obj [("id", .str "a1"), ("status", .obj [("state", .str "expired")]),
               ("matchers", .arr [.obj [("name", .str "alertname"), ("value", .str "Disk"),
                                        ("isRegex", .bool false)]]),
               ("createdBy", .str "ops"), ("comment", .str "maintenance")],
         .obj [("id", .str "b2"), ("status", .str "expired"),
               ("createdBy", .str "ops"), ("comment", .str "maintenance")]]))) =
      .ok [{ Silence.zero with
               ID := "a1", Matchers := [⟨"alertname", "Disk", false⟩],
               CreatedBy := "ops", Comment := "maintenance" },
           { Silence.zero with ID := "b2", CreatedBy := "ops", Comment := "maintenance" }] ∧
    Silence.GetState { Silence.zero with
        ID := "a1", Matchers := [⟨"alertname", "Disk", false⟩],
        CreatedBy := "ops", Comment := "maintenance" } = "active" ∧
    Silence.GetState
      { Silence.zero with ID := "b2", CreatedBy := "ops", Comment := "maintenance" } = "active" ∧
    findField silenceFields "status" = none :=
  ⟨rfl, rfl, rfl, rfl⟩

/-! ## Client-side defaults -/

/-- C9. The silence that `CreateSilence` serializes keeps a non-zero `startsAt`, a
non-zero `endsAt` and a non-empty `createdBy` of the caller, fills a zero `startsAt` with
the clock reading, a zero `endsAt` with the next clock reading plus one hour and an empty
`createdBy` with `alertctl`, and leaves `id`, `matchers`, `comment` and both status fields
as they are. When the clock reads `now` during the call, the serialized silence is the
caller's with exactly these three defaults at `now`. -/
theorem CreateSilence_defaults (clk : Clock) (k : Nat) (s : Silence) :
    (s.StartsAt.IsZero = false → (CreateSilence.serialized clk k s).StartsAt = s.StartsAt) ∧
    (s.StartsAt.IsZero = true → (CreateSilence.serialized clk k s).StartsAt = clk k) ∧
    (s.EndsAt.IsZero = false → (CreateSilence.serialized clk k s).EndsAt = s.EndsAt) ∧
    (s.EndsAt.IsZero = true →
      (CreateSilence.serialized clk k s).EndsAt =
        (clk (if s.StartsAt.IsZero then k + 1 else k)).Add Hour) ∧
    (s.CreatedBy ≠ "" → (CreateSilence.serialized clk k s).CreatedBy = s.CreatedBy) ∧
    (s.CreatedBy = "" → (CreateSilence.serialized clk k s).CreatedBy = "alertctl") ∧
    (CreateSilence.serialized clk k s).ID = s.ID ∧
    (CreateSilence.serialized clk k s).Matchers = s.Matchers ∧
    (CreateSilence.serialized clk k s).Comment = s.Comment ∧
    (CreateSilence.serialized clk k s).Status = s.Status ∧
    (CreateSilence.serialized clk k s).StatusV2 = s.StatusV2 ∧
    (∀ now : Time, (∀ j, clk j = now) →
      CreateSilence.serialized clk k s =
        { s with
          StartsAt := if s.StartsAt.IsZero then now else s.StartsAt,
          EndsAt := if s.EndsAt.IsZero then now.Add Hour else s.EndsAt,
          CreatedBy := if s.CreatedBy = "" then "alertctl" else s.CreatedBy }) := by
  refine ⟨?_, ?_, ?_, ?_, ?_, ?_, ?_, ?_, ?_, ?_, ?_, ?_⟩
  case refine_12 =>
    intro now hnow
    unfold CreateSilence.serialized
    simp only [hnow, one_mul]
    by_cases h1 : s.StartsAt.IsZero = true <;> by_cases h2 : s.EndsAt.IsZero = true <;>
      by_cases h3 : s.CreatedBy = "" <;> simp [h1, h2, h3]
  all_goals
    unfold CreateSilence.serialized
    simp only [one_mul]
    by_cases h1 : s.StartsAt.IsZero = true <;> by_cases h2 : s.EndsAt.IsZero = true <;>
      by_cases h3 : s.CreatedBy = "" <;> simp [h1, h2, h3]

/-- Witness for C9: an all-zero silence with one matcher and a comment, and a silence
whose three defaulted fields are supplied, with the clock reading 5 ns throughout. -/
theorem CreateSilence_defaults_witness :
    CreateSilence.serialized (fun _ => ⟨5⟩) 0
        { Silence.zero with Matchers := [⟨"alertname", "Disk", false⟩], Comment := "c" } =
      { Silence.zero with
          Matchers := [⟨"alertname", "Disk", false⟩], Comment := "c",
          StartsAt := ⟨5⟩, EndsAt := ⟨3600000000005⟩, CreatedBy := "alertctl" } ∧
    CreateSilence.serialized (fun _ => ⟨5⟩) 0
        { Silence.zero with StartsAt := ⟨1⟩, EndsAt := ⟨2⟩, CreatedBy := "ops" } =
      { Silence.zero with StartsAt := ⟨1⟩, EndsAt := ⟨2⟩, CreatedBy := "ops" } :=
  ⟨(CreateSilence_defaults (fun _ => ⟨5⟩) 0
      { Silence.zero with Matchers := [⟨"alertname", "Disk", false⟩],
                          Comment := "c" }).2.2.2.2.2.2.2.2.2.2.2 ⟨5⟩ (fun _ => rfl),
   (CreateSilence_defaults (fun _ => ⟨5⟩) 0
      { Silence.zero with StartsAt := ⟨1⟩, EndsAt := ⟨2⟩,
                          CreatedBy := "ops" }).2.2.2.2.2.2.2.2.2.2.2 ⟨5⟩ (fun _ => rfl)⟩

theorem GetAlerts.enrich_cons (clk : Clock) (a : Alert) (rest : List Alert) (k : Nat) :
    GetAlerts.enrich clk k (a :: rest) =
      { a with
        StartsAt := if a.StartsAt.IsZero then clk k else a.StartsAt,
        EndsAt := if a.EndsAt.IsZero then
            (clk (if a.StartsAt.IsZero then k + 1 else k)).Add (24 * Hour)
          else a.EndsAt } ::
        GetAlerts.enrich clk
          ((if a.StartsAt.IsZero then k + 1 else k) + (if a.EndsAt.IsZero then 1 else 0))
          rest := by
  rw [GetAlerts.enrich]
  cases h1 : a.StartsAt.IsZero <;> cases h2 : a.EndsAt.IsZero <;> simp [h1, h2]

theorem GetAlerts.enrich_forall₂ (clk : Clock) (alerts : List Alert) (k : Nat) :
    List.Forall₂
      (fun a r : Alert =>
        r.Labels = a.Labels ∧ r.Annotations = a.Annotations ∧
        r.Fingerprint = a.Fingerprint ∧ r.UpdatedAt = a.UpdatedAt ∧
        r.Status = a.Status ∧ r.AlertStatus = a.AlertStatus ∧
        (a.StartsAt.IsZero = false → r.StartsAt = a.StartsAt) ∧
        (a.StartsAt.IsZero = true → ∃ j, r.StartsAt = clk j) ∧
        (a.EndsAt.IsZero = false → r.EndsAt = a.EndsAt) ∧
        (a.EndsAt.IsZero = true → ∃ j, r.EndsAt = (clk j).Add (24 * Hour)))
      alerts (GetAlerts.enrich clk k alerts) := by
  induction alerts generalizing k with
  | nil => exact List.Forall₂.nil
  | cons a rest ih =>
    rw [GetAlerts.enrich_cons]
    refine List.Forall₂.cons ⟨rfl, rfl, rfl, rfl, rfl, rfl, ?_, ?_, ?_, ?_⟩ (ih _)
    · intro h
      simp [h]
    · intro h
      exact ⟨k, by simp [h]⟩
    · intro h
      simp [h]
    · intro h
      exact ⟨if a.StartsAt.IsZero then k + 1 else k, by simp [h]⟩

theorem GetAlerts.enrich_frozen (clk : Clock) (now : Time) (hnow : ∀ j, clk j = now)
    (alerts : List Alert) (k : Nat) :
    GetAlerts.enrich clk k alerts =
      alerts.map (fun a =>
        { a with
          StartsAt := if a.StartsAt.IsZero then now else a.StartsAt,
          EndsAt := if a.EndsAt.IsZero then now.Add (24 * Hour) else a.EndsAt }) := by
  induction alerts generalizing k with
  | nil => rfl
  | cons a rest ih =>
    rw [GetAlerts.enrich_cons, ih]
    simp [hnow]

/-- C10. On the v2 path, a successfully decoded response is returned with the same
length and order; each element keeps every field but `startsAt` and `endsAt`, keeps a
non-zero `startsAt` or `endsAt`, and has a zero `startsAt` replaced by a clock reading
and a zero `endsAt` by a clock reading plus 24 hours: by `now` and `now + 24h` when the
clock reads `now` during the call. On the v1 path the alerts of the decoded envelope are
returned as they are, timestamps included. -/
theorem GetAlerts_timestamps (parseTime : String → Option Time) (clk : Clock) (v : JSON) :
    (∀ (APIVersion : String) (alerts : List Alert), APIVersion ≠ "v1" →
      unmarshalAlerts parseTime v = .ok alerts →
      ∃ rs, GetAlerts parseTime clk APIVersion (.ok (some v)) = .ok rs ∧
        rs.length = alerts.length ∧
        List.Forall₂
          (fun a r : Alert =>
            r.Labels = a.Labels ∧ r.Annotations = a.Annotations ∧
            r.Fingerprint = a.Fingerprint ∧ r.UpdatedAt = a.UpdatedAt ∧
            r.Status = a.Status ∧ r.AlertStatus = a.AlertStatus ∧
            (a.StartsAt.IsZero = false → r.StartsAt = a.StartsAt) ∧
            (a.StartsAt.IsZero = true → ∃ j, r.StartsAt = clk j) ∧
            (a.EndsAt.IsZero = false → r.EndsAt = a.EndsAt) ∧
            (a.EndsAt.IsZero = true → ∃ j, r.EndsAt = (clk j).Add (24 * Hour)))
          alerts rs ∧
        (∀ now : Time, (∀ j, clk j = now) →
          rs = alerts.map (fun a =>
            { a with
              StartsAt := if a.StartsAt.IsZero then now else a.StartsAt,
              EndsAt := if a.EndsAt.IsZero then now.Add (24 * Hour) else a.EndsAt }))) ∧
    (∀ response : AlertResponse, unmarshalAlertResponse parseTime v = .ok response →
      GetAlerts parseTime clk "v1" (.ok (some v)) = .ok response.Data) := by
  constructor
  · intro ver alerts hver hdec
    refine ⟨GetAlerts.enrich clk 0 alerts, ?_, ?_, GetAlerts.enrich_forall₂ clk alerts 0, ?_⟩
    · simp [GetAlerts, hver, hdec]
    · exact (List.Forall₂.length_eq (GetAlerts.enrich_forall₂ clk alerts 0)).symm
    · intro now hnow
      exact GetAlerts.enrich_frozen clk now hnow alerts 0
  · intro response hdec
    simp [GetAlerts, hdec]

/-- Witness for C10: a v2 array of an alert without timestamps and an alert with both,
read with the clock at 5 ns; the same alert without timestamps in a v1 envelope. -/
theorem GetAlerts_timestamps_witness :
    GetAlerts (fun s => if s = "2024-01-01T00:00:00Z" then some ⟨7⟩ else none) (fun _ => ⟨5⟩)
        "v2"
        (.ok (some (.arr
          [.obj [("labels", .obj [("alertname", .str "Disk")])],
           .obj [("startsAt", .str "2024-01-01T00:00:00Z"),
                 ("endsAt", .str "2024-01-01T00:00:00Z")]]))) =
      .ok [{ Alert.zero with
               Labels := [("alertname", "Disk")],
               StartsAt := ⟨5⟩, EndsAt := ⟨86400000000005⟩ },
           { Alert.zero with StartsAt := ⟨7⟩, EndsAt := ⟨7⟩ }] ∧
    GetAlerts (fun s => if s = "2024-01-01T00:00:00Z" then some ⟨7⟩ else none) (fun _ => ⟨5⟩)
        "v1"
        (.ok (some (.obj
          [("status", .str "success"),
           ("data", .arr [.obj [("labels", .obj [("alertname", .str "Disk")])]])]))) =
      .ok [{ Alert.zero with Labels := [("alertname", "Disk")] }] := by
  constructor
  · obtain ⟨rs, h1, _, _, h4⟩ :=
      (GetAlerts_timestamps (fun s => if s = "2024-01-01T00:00:00Z" then some ⟨7⟩ else none)
        (fun _ => ⟨5⟩)
        (.arr
          [.obj [("labels", .obj [("alertname", .str "Disk")])],
           .obj [("startsAt", .str "2024-01-01T00:00:00Z"),
                 ("endsAt", .str "2024-01-01T00:00:00Z")]])).1 "v2"
        [{ Alert.zero with Labels := [("alertname", "Disk")] },
         { Alert.zero with StartsAt := ⟨7⟩, EndsAt := ⟨7⟩ }] (by decide) rfl
    rw [h1, h4 ⟨5⟩ (fun _ => rfl)]
    rfl
  · exact (GetAlerts_timestamps (fun s => if s = "2024-01-01T00:00:00Z" then some ⟨7⟩ else none)
        (fun _ => ⟨5⟩)
        (.obj
          [("status", .str "success"),
           ("data", .arr [.obj [("labels", .obj [("alertname", .str "Disk")])]])])).2
        { Status := "success", Data := [{ Alert.zero with Labels := [("alertname", "Disk")] }],
          ErrorType := "", Error := "" } rfl

/-! ## Alert table -/

theorem printAlerts.rows_details (durationString : Duration → String) (clk : Clock)
    (alerts : List Alert) (k : Nat) :
    (printAlerts.rows durationString clk true k alerts).2 = none ↔
      ∀ a ∈ alerts, a.AlertStatus ≠ none := by
  induction alerts generalizing k with
  | nil => simp [printAlerts.rows]
  | cons a rest ih =>
    cases hst : a.AlertStatus with
    | none =>
      simp only [printAlerts.rows, hst, if_true]
      constructor
      · intro h
        cases h
      · intro h
        exact absurd hst (h a (List.mem_cons_self a rest))
    | some st =>
      simp only [printAlerts.rows, hst, if_true]
      rw [ih (k + 1)]
      constructor
      · intro h b hb
        rcases List.mem_cons.mp hb with e | e
        · rw [e, hst]
          exact Option.some_ne_none st
        · exact h b e
      · intro h b hb
        exact h b (List.mem_cons_of_mem a hb)

theorem printAlerts.rows_plain (durationString : Duration → String) (clk : Clock)
    (alerts : List Alert) (k : Nat) :
    (printAlerts.rows durationString clk false k alerts).2 = none := by
  induction alerts generalizing k with
  | nil => rfl
  | cons a rest ih =>
    simp only [printAlerts.rows]
    exact ih (k + 1)

/-- The table with details is written without a panic exactly when every alert carries a
structured status; without details it is always written. -/
theorem printAlerts_failure (durationString : Duration → String) (clk : Clock)
    (alerts : List Alert) :
    ((printAlerts durationString clk alerts true).2 = none ↔
      ∀ a ∈ alerts, a.AlertStatus ≠ none) ∧
    (printAlerts durationString clk alerts false).2 = none := by
  constructor
  · simp only [printAlerts]
    exact printAlerts.rows_details durationString clk alerts 0
  · simp only [printAlerts]
    exact printAlerts.rows_plain durationString clk alerts 0

/-- C11, evaluated at failing inputs. An alert object with a v1 bare-string status, and
one with no status at all, decode to alerts whose structured status is absent;
`printAlerts` with details panics on such an alert after the header line, where the
filter-path classifier `getAlertState` on the same alert guards the nil pointer and
answers `active`; and `listAlerts` with `showAll` set panics in the same way on a v2
response that holds one alert without a status. -/
theorem printAlerts_details_panic (parseTime : String → Option Time)
    (durationString : Duration → String) (clk clkPrint : Clock) :
    Alert.UnmarshalJSON parseTime Alert.zero
        (.obj [("labels", .obj [("alertname", .str "Disk")]), ("status", .str "firing")]) =
      .ok { Alert.zero with Labels := [("alertname", "Disk")], Status := "firing" } ∧
    Alert.UnmarshalJSON parseTime Alert.zero
        (.obj [("labels", .obj [("alertname", .str "Disk")])]) =
      .ok { Alert.zero with Labels := [("alertname", "Disk")] } ∧
    printAlerts durationString clk
        [{ Alert.zero with Labels := [("alertname", "Disk")], Status := "firing" }] true =
      (["ALERT\tSEVERITY\tSTATE\tSINCE\tINSTANCE\tSUMMARY\tSILENCED BY\tINHIBITED BY"],
       some (.panic "invalid memory address or nil pointer dereference")) ∧
    printAlerts durationString clk
        [{ Alert.zero with Labels := [("alertname", "Disk")] }] true =
      (["ALERT\tSEVERITY\tSTATE\tSINCE\tINSTANCE\tSUMMARY\tSILENCED BY\tINHIBITED BY"],
       some (.panic "invalid memory address or nil pointer dereference")) ∧
    getAlertState { Alert.zero with Labels := [("alertname", "Disk")], Status := "firing" } =
      "active" ∧
    listAlerts parseTime durationString clk clkPrint "v2"
        (.ok (some (.arr [.obj [("labels", .obj [("alertname", .str "Disk")])]])))
        { showAll := true, showSilenced := false, showInhibited := false,
          showActive := false, severity := "", instance_ := "" } =
      (["ALERT\tSEVERITY\tSTATE\tSINCE\tINSTANCE\tSUMMARY\tSILENCED BY\tINHIBITED BY"],
       some (.panic "invalid memory address or nil pointer dereference")) :=
  ⟨rfl, rfl, rfl, rfl, rfl, rfl⟩

end Alertctl
